import Mathlib

/-!
Verification of the client-side API cache and polling layer of the
repository (source: src/lib/api.ts and the training monitor pages).

The TypeScript `ApiClient` holds a `Map<string, CacheEntry<any>>`.  We embed
the cache as an association list with the usual map semantics: `mapGet`
returns the entry of the first matching key, `mapDelete` removes a key,
`mapSet` overwrites (JS `Map.set`).  Iteration order of the underlying map is
irrelevant to every property proved here (invalidation and statistics are
order-independent), so `mapSet` is modelled as delete-then-append.

Time is modelled as an explicit integer parameter `now` standing for
`Date.now()` (milliseconds).
-/

/-- Entry of the TTL cache, from src/lib/api.ts: `{data, timestamp, ttl}`,
with `ttl` the time to live in milliseconds. -/
structure CacheEntry (α : Type) where
  data : α
  timestamp : Int
  ttl : Int
  deriving Repr, DecidableEq

/-- The cache of the ApiClient: a string-keyed map of cache entries. -/
abbrev Cache (α : Type) := List (String × CacheEntry α)

/-- Lookup of the first entry stored under a key (JS `Map.get`). -/
def mapGet {α : Type} : Cache α → String → Option (CacheEntry α)
  | [], _ => none
  | (k', e) :: rest, k => if k' = k then some e else mapGet rest k

/-- Removal of a key (JS `Map.delete`). -/
def mapDelete {α : Type} : Cache α → String → Cache α
  | [], _ => []
  | (k', e) :: rest, k =>
      if k' = k then mapDelete rest k else (k', e) :: mapDelete rest k

/-- Insert or overwrite a key (JS `Map.set`).  Extensionally equal, as a map,
to the in-place update the JS map performs. -/
def mapSet {α : Type} (c : Cache α) (k : String) (e : CacheEntry α) : Cache α :=
  mapDelete c k ++ [(k, e)]

/-- Whether the character list `p` is a prefix of `s`. -/
def listStartsWith : List Char → List Char → Bool
  | [], _ => true
  | _ :: _, [] => false
  | a :: as, b :: bs => a == b && listStartsWith as bs

/-- Whether the character list `p` occurs contiguously inside `s`. -/
def listContainsSeg (p : List Char) : List Char → Bool
  | [] => p.isEmpty
  | b :: rest => listStartsWith p (b :: rest) || listContainsSeg p rest

/-- JS `s.includes(pat)`: substring containment test. -/
def strIncludes (s pat : String) : Bool :=
  listContainsSeg pat.toList s.toList

/-- Default TTL of the client: 5 minutes (`DEFAULT_TTL`). -/
def DEFAULT_TTL : Int := 5 * 60 * 1000

/-- TTL of the project list cache: 2 minutes (`PROJECT_LIST_TTL`). -/
def PROJECT_LIST_TTL : Int := 2 * 60 * 1000

/-- TTL of completed training summaries: 30 minutes (`TRAINING_SUMMARY_TTL`). -/
def TRAINING_SUMMARY_TTL : Int := 30 * 60 * 1000

/-- Cache key construction, from the source:
the method name and the arguments joined with ":" and no escaping
(`\x7b$\x7bmethod\x7d:$\x7bparams.join(querySep)\x7d` with querySep ":"). -/
def getCacheKey (method : String) (params : List String) : String :=
  method ++ ":" ++ String.intercalate ":" params

/-- Validity test of a cache entry, from the source:
`Date.now() - entry.timestamp < entry.ttl`. -/
def isValidCache {α : Type} (now : Int) (entry : CacheEntry α) : Bool :=
  decide (now - entry.timestamp < entry.ttl)

/-- Cache lookup, from the source: return the data when the entry exists and
is valid; delete the entry when it exists but expired; return null otherwise.
The second component is the cache after the call. -/
def getFromCache {α : Type} (now : Int) (c : Cache α) (key : String) :
    Option α × Cache α :=
  match mapGet c key with
  | some entry =>
      if isValidCache now entry then (some entry.data, c)
      else (none, mapDelete c key)
  | none => (none, c)

/-- Cache insertion, from the source: store the data with
`timestamp = Date.now()` and the given ttl. -/
def setCache {α : Type} (now : Int) (c : Cache α) (key : String) (data : α)
    (ttl : Int) : Cache α :=
  mapSet c key { data := data, timestamp := now, ttl := ttl }

/-- Pattern invalidation, from the source: delete every key that contains the
pattern as a substring (`key.includes(pattern)`). -/
def invalidateCache {α : Type} (c : Cache α) (pattern : String) : Cache α :=
  c.filter fun p => !(strIncludes p.1 pattern)

/-- Full clear, from the source (`clearCache`). -/
def clearCache {α : Type} (_c : Cache α) : Cache α := []

/-- Project-scoped invalidation, from the source: with a project id,
invalidate by that id; without one, invalidate the list and status caches. -/
def invalidateProjectCache {α : Type} (c : Cache α) :
    Option String → Cache α
  | some projectId => invalidateCache c projectId
  | none => invalidateCache (invalidateCache c "listProjects") "getProjectStatus"

/-- Cache membership test, from the source (`isCached`): looks the key up and
tests validity; the method reads `this.cache` and writes nothing, so the
output state is the input state. -/
def isCached {α : Type} (now : Int) (c : Cache α) (method : String)
    (params : List String) : Bool × Cache α :=
  let cacheKey := getCacheKey method params
  match mapGet c cacheKey with
  | some entry => (isValidCache now entry, c)
  | none => (false, c)

/-- Cache statistics counters, from the source (`getCacheStats`): one pass
over the entries counting valid and expired, with `total = valid + expired`.
The `hitRate` field of the source is a percentage string formatted from
`valid` and `total` for display and is not modelled. -/
structure CacheStats where
  total : Nat
  valid : Nat
  expired : Nat
  deriving Repr, DecidableEq

/-- Statistics computation, from the source: scans all entries and tests
expiry; the method writes nothing, so the output state is the input state. -/
def getCacheStats {α : Type} (now : Int) (c : Cache α) :
    CacheStats × Cache α :=
  let valid := c.countP fun p => isValidCache now p.2
  let expired := c.countP fun p => !(isValidCache now p.2)
  ({ total := valid + expired, valid := valid, expired := expired }, c)

/-!
API operations.  Each operation wraps one network call; the network is an
external collaborator, so the server response (or failure) is an explicit
parameter and the functions below compute the result and the cache after the
call exactly as the source does.  src/lib/api.ts contains two near-identical
copies of the ApiClient module; the cache logic embedded here is identical in
both, and the shapes follow the first copy.
-/

/-- Response shape of project endpoints, from the source (`ProjectResponse`). -/
structure ProjectResponse where
  project_id : String
  status : String
  message : Option String
  deriving Repr, DecidableEq

/-- Request shape of `startTraining`, from the source (`TrainingRequest`);
numeric hyperparameters are modelled as rationals. -/
structure TrainingRequest where
  project_id : String
  model_type : String
  gpu_provider : String
  epochs : Int
  batch_size : Int
  learning_rate : ℚ
  train_split : ℚ
  validation_split : ℚ
  test_split : ℚ
  validation_metric : String
  early_stopping : Option Bool
  patience : Option Int
  use_cross_validation : Option Bool
  cv_folds : Option Int
  random_seed : Option Int

/-- Nested summary text of a training summary, from the source. -/
structure SummaryText where
  technical_summary : String
  layman_summary : String
  key_achievements : List String
  recommendations : List String
  deriving Repr, DecidableEq

/-- Response shape of `getTrainingSummary`, from the source
(`TrainingSummary`); `training_metrics` is an opaque record modelled as
key-value pairs. -/
structure TrainingSummary where
  project_id : String
  training_id : String
  project_name : String
  summary : SummaryText
  ai_summary_status : String
  ai_summary_error : Option String
  training_metrics : List (String × String)
  training_duration : Int
  gpu_used : String
  deriving Repr, DecidableEq

/-- Cache effect of a successful `uploadDataset(projectId, ...)` call, from
the source: on a 2xx parsed response the client runs
`invalidateProjectCache(projectId)`; on failure it throws and the cache is
untouched.  `ok` records whether the call succeeded. -/
def uploadDataset {α : Type} (c : Cache α) (projectId : String) (ok : Bool) :
    Cache α :=
  if ok then invalidateProjectCache c (some projectId) else c

/-- Cache effect of `startTraining(request)`, from the source: a successful
call runs `invalidateProjectCache(request.project_id)`. -/
def startTraining {α : Type} (c : Cache α) (request : TrainingRequest)
    (ok : Bool) : Cache α :=
  if ok then invalidateProjectCache c (some request.project_id) else c

/-- Cache effect of `deleteProject(projectId)`, from the source: a successful
call runs `invalidateProjectCache(projectId)`. -/
def deleteProject {α : Type} (c : Cache α) (projectId : String) (ok : Bool) :
    Cache α :=
  if ok then invalidateProjectCache c (some projectId) else c

/-- Cache effect of a successful `createProject` call, from the source: runs
`invalidateProjectCache()` with no id, which clears the list and status
caches. -/
def createProject {α : Type} (c : Cache α) (ok : Bool) : Cache α :=
  if ok then invalidateProjectCache c none else c

/-- The operation `getTrainingSummary(projectId, trainingId)`, from the
source.  The cache is consulted first (`getFromCache`, which also evicts an
expired entry); on a miss the network result `result` is returned and cached
with a 30 minute ttl when `ai_summary_status` is "completed", cached for 10
seconds when it is "generating", and not cached otherwise.  On a hit the
network is not called and `result` is unused. -/
def getTrainingSummary (now : Int) (c : Cache TrainingSummary)
    (projectId trainingId : String) (result : TrainingSummary) :
    TrainingSummary × Cache TrainingSummary :=
  let cacheKey := getCacheKey "getTrainingSummary" [projectId, trainingId]
  match getFromCache now c cacheKey with
  | (some cached, c1) => (cached, c1)
  | (none, c1) =>
      if result.ai_summary_status = "completed" then
        (result, setCache now c1 cacheKey result TRAINING_SUMMARY_TTL)
      else if result.ai_summary_status = "generating" then
        (result, setCache now c1 cacheKey result (10 * 1000))
      else
        (result, c1)

/-!
Error messages thrown on a non-2xx response.
-/

/-- What the client finds in the body of a non-2xx response: either
`response.json()` rejects (unparsable body, carrying the parse failure
message), or it parses to an object whose optional `detail` field is given
(none when the field is missing). -/
inductive ErrorBody
  | unparsable (parseErrorMsg : String)
  | parsed (detail : Option String)
  deriving Repr, DecidableEq

/-- The generic fallback message built from the HTTP status code, from the
source: "HTTP error! status: " followed by the status. -/
def httpErrorFallback (status : Nat) : String :=
  "HTTP error! status: " ++ toString status

/-- JS `errorData.detail || fallback`: a missing or empty detail string is
falsy and selects the fallback. -/
def detailOr (detail : Option String) (fallback : String) : String :=
  match detail with
  | some d => if d = "" then fallback else d
  | none => fallback

/-- Message of the error thrown by the non-download operations
(createProject, getProjectStatus, uploadDataset, startTraining,
getTrainingStatus, getTrainingLogs, listProjects, getTrainingSummary,
getDatasetAnalysis, getTrainingConfigOptions, deleteProject) on a non-2xx
response, from the source: `await response.json()` rejects on an unparsable
body and that rejection propagates unchanged (the outer catch logs and
rethrows); on a parsed body the message is `errorData.detail || fallback`. -/
def apiErrorMessage (status : Nat) (body : ErrorBody) : String :=
  match body with
  | .unparsable parseErrorMsg => parseErrorMsg
  | .parsed detail => detailOr detail (httpErrorFallback status)

/-- Message of the error thrown by downloadModelWeights and
downloadProjectCode on a non-2xx response, from the source: start from the
status fallback, overwrite with `errorData.detail || previous` when the body
parses, and with `response.statusText || previous` when parsing rejects. -/
def downloadErrorMessage (status : Nat) (statusText : String)
    (body : ErrorBody) : String :=
  match body with
  | .parsed detail => detailOr detail (httpErrorFallback status)
  | .unparsable _ =>
      if statusText = "" then httpErrorFallback status else statusText

/-!
Poller models, from src/app/training/[projectId]/[trainingId]/page.tsx.

The training monitor page polls `getTrainingStatus` and `getTrainingLogs`
with timer chains created inside a React effect.  Two facts of the source
shape the models below.

First, every value an effect closure reads (`trainingData?.status`,
`isMounted`, the interval variables) is the value of the render that created
the effect run; a `setState` call later in time does not change what an
already-created closure sees.  The timer callbacks of one chain therefore
decide from the status and mounted flag captured when the chain was created.

Second, the helpers `fetchTrainingStatus` and `fetchTrainingLogs` wrap their
bodies in try/catch and do not rethrow, so the promises they return always
resolve; the catch branches of `scheduleStatusFetch` and `scheduleLogFetch`
that grow the poll interval can never run.
-/

/-- The component state the training monitor view is in at some instant:
whether it is still mounted and the latest fetched training status. -/
structure ViewState where
  mounted : Bool
  status : Option String
  deriving Repr, DecidableEq

/-- Whether a fired status-chain tick performs its fetch, from the source:
the tick body starts with a guard on `isMounted`, and that read resolves to
the closure-captured flag; the current component state is inaccessible to the
callback and cannot enter the decision. -/
def statusTickFetches (captured _current : ViewState) : Bool :=
  captured.mounted

/-- Whether a fired status-chain tick schedules the next tick, from the
source: after the fetch resolves the tick runs `scheduleStatusFetch`, which
guards on the captured `isMounted` and on the captured
`trainingData?.status` being "running" or "queued"; the fetched response and
the current component state do not enter the decision. -/
def statusTickReschedules (captured _current : ViewState) : Bool :=
  captured.mounted &&
    (captured.status == some "running" || captured.status == some "queued")

/-- Trace of one status-poll timer chain created by an effect run whose
closure captured `capturedStatus` and `capturedMounted`: `responses` feeds
successive `getTrainingStatus` results, and the returned list holds the
responses the chain actually fetches, one per network call.  Each tick
fetches and then reschedules exactly when the captured values allow it; the
fetched response never enters the decision. -/
def statusChainTrace (capturedStatus : Option String)
    (capturedMounted : Bool) : List String → List String
  | [] => []
  | r :: rest =>
      if capturedMounted &&
          (capturedStatus == some "running" || capturedStatus == some "queued")
      then r :: statusChainTrace capturedStatus capturedMounted rest
      else []

/-- Outcome of one underlying network call of a poll tick. -/
inductive FetchOutcome
  | success
  | transportFailure
  deriving Repr, DecidableEq

/-- Whether the promise returned by `fetchTrainingLogs` rejects, from the
source: its body is a single try/catch whose catch only logs, so the function
resolves normally for every outcome, transport failure included. -/
def fetchTrainingLogsRejects : FetchOutcome → Bool :=
  fun _ => false

/-- Whether the promise returned by `fetchTrainingStatus` rejects, from the
source: its try/catch sets error state and does not rethrow, so the function
resolves normally for every outcome. -/
def fetchTrainingStatusRejects : FetchOutcome → Bool :=
  fun _ => false

/-- Log poll interval after one tick, from the source: the backoff
`logPollInterval = Math.min(logPollInterval * 1.5, 30000)` runs only in the
catch branch, reached only when `await fetchTrainingLogs()` rejects. -/
def logTickInterval (i : ℚ) (o : FetchOutcome) : ℚ :=
  if fetchTrainingLogsRejects o then min (i * (3 / 2)) 30000 else i

/-- Status poll interval after one tick, from the source: the backoff
`statusPollInterval = Math.min(statusPollInterval * 1.2, 20000)` runs only in
the catch branch, reached only when `await fetchTrainingStatus()` rejects. -/
def statusTickInterval (i : ℚ) (o : FetchOutcome) : ℚ :=
  if fetchTrainingStatusRejects o then min (i * (6 / 5)) 20000 else i

/-- Scheduled log poll delay after a sequence of tick outcomes, starting from
the initial 3000 ms of the source. -/
def logIntervalAfter (outcomes : List FetchOutcome) : ℚ :=
  outcomes.foldl logTickInterval 3000

/-- Scheduled status poll delay after a sequence of tick outcomes, starting
from the initial 8000 ms of the source. -/
def statusIntervalAfter (outcomes : List FetchOutcome) : ℚ :=
  outcomes.foldl statusTickInterval 8000

/-- A sample completed training summary, used to instantiate theorems. -/
def sampleSummaryCompleted : TrainingSummary :=
  { project_id := "p"
    training_id := "t"
    project_name := "demo"
    summary :=
      { technical_summary := "ts"
        layman_summary := "ls"
        key_achievements := []
        recommendations := [] }
    ai_summary_status := "completed"
    ai_summary_error := none
    training_metrics := []
    training_duration := 60
    gpu_used := "A10G" }

/-!
Helper lemmas about the map operations.
-/

theorem mapGet_mapDelete {α : Type} (c : Cache α) (k k' : String) :
    mapGet (mapDelete c k) k' = if k' = k then none else mapGet c k' := by
  induction c with
  | nil => simp [mapGet, mapDelete]
  | cons hd tl ih =>
    obtain ⟨hk, he⟩ := hd
    by_cases h1 : hk = k
    · subst h1
      by_cases h2 : k' = hk
      · subst h2
        simp [mapDelete, mapGet, ih]
      · have h3 : ¬hk = k' := fun h => h2 h.symm
        simp [mapDelete, mapGet, ih, h2, h3]
    · by_cases h2 : hk = k'
      · subst h2
        simp [mapDelete, mapGet, h1]
      · simp [mapDelete, mapGet, h1, h2, ih]

theorem mapGet_append {α : Type} (c₁ c₂ : Cache α) (k : String) :
    mapGet (c₁ ++ c₂) k =
      match mapGet c₁ k with
      | some e => some e
      | none => mapGet c₂ k := by
  induction c₁ with
  | nil => simp [mapGet]
  | cons hd tl ih =>
    obtain ⟨hk, he⟩ := hd
    by_cases h : hk = k <;> simp [mapGet, h, ih]

theorem mapGet_mapSet {α : Type} (c : Cache α) (k k' : String)
    (e : CacheEntry α) :
    mapGet (mapSet c k e) k' = if k' = k then some e else mapGet c k' := by
  rw [mapSet, mapGet_append]
  by_cases h : k' = k
  · subst h
    simp [mapGet_mapDelete, mapGet]
  · have h2 : ¬k = k' := fun hh => h hh.symm
    simp [mapGet_mapDelete, mapGet, h, h2]
    cases mapGet c k' <;> rfl

theorem mapGet_filterKey {α : Type} (c : Cache α) (q : String → Bool)
    (k : String) :
    mapGet (c.filter fun p => q p.1) k =
      if q k = true then mapGet c k else none := by
  induction c with
  | nil => simp [mapGet]
  | cons hd tl ih =>
    obtain ⟨hk, he⟩ := hd
    by_cases hq : q hk = true
    · by_cases hkk : hk = k
      · subst hkk
        simp [List.filter_cons, hq, mapGet, ih]
      · simp [List.filter_cons, hq, mapGet, hkk, ih]
    · by_cases hkk : hk = k
      · subst hkk
        simp [List.filter_cons, hq, mapGet, ih]
      · simp [List.filter_cons, hq, mapGet, hkk, ih]

theorem mapGet_mem {α : Type} {c : Cache α} {k : String} {e : CacheEntry α}
    (h : mapGet c k = some e) : (k, e) ∈ c := by
  induction c with
  | nil => simp [mapGet] at h
  | cons hd tl ih =>
    obtain ⟨hk, he⟩ := hd
    by_cases hkk : hk = k
    · subst hkk
      simp [mapGet] at h
      simp [h]
    · simp [mapGet, hkk] at h
      exact List.mem_cons_of_mem _ (ih h)

theorem countP_add_countP_not {α : Type} (p : α → Bool) (l : List α) :
    l.countP p + l.countP (fun a => !p a) = l.length := by
  induction l with
  | nil => simp
  | cons a l ih =>
    by_cases h : p a = true <;> simp [List.countP_cons, h] <;> omega

theorem one_le_countP_of_mem {α : Type} {p : α → Bool} {l : List α} {a : α}
    (ha : a ∈ l) (hp : p a = true) : 1 ≤ l.countP p := by
  induction l with
  | nil => simp at ha
  | cons b l ih =>
    rcases List.mem_cons.mp ha with h | h
    · subst h
      simp [List.countP_cons, hp]
    · have := ih h
      simp [List.countP_cons]
      omega

theorem getFromCache_of_not_mem {α : Type} (now : Int) (c : Cache α)
    (k : String) (h : mapGet c k = none) :
    getFromCache now c k = (none, c) := by
  simp [getFromCache, h]

theorem getFromCache_hit_state {α : Type} {now : Int} {c : Cache α}
    {k : String} {v : α} (h : (getFromCache now c k).1 = some v) :
    getFromCache now c k = (some v, c) := by
  rcases hc : mapGet c k with _ | e
  · simp [getFromCache, hc] at h
  · by_cases hv : isValidCache now e = true
    · simp [getFromCache, hc, hv] at h ⊢
      exact h
    · simp [getFromCache, hc, hv] at h

theorem mapGet_after_miss {α : Type} (now : Int) (c : Cache α) (k : String)
    (h : (getFromCache now c k).1 = none) :
    mapGet (getFromCache now c k).2 k = none := by
  rcases hc : mapGet c k with _ | e
  · simp [getFromCache, hc]
  · by_cases hv : isValidCache now e = true
    · simp [getFromCache, hc, hv] at h
    · simp [getFromCache, hc, hv, mapGet_mapDelete]

/-- C1: for every key k, the cache lookup returns a value iff the entry set
by a prior setCache is fresh, that is, now minus its timestamp is strictly
below its ttl; otherwise the lookup is absent and, when an expired entry
existed, it is deleted (every other key untouched), so a second lookup on
the same expired key is also absent and leaves the store unchanged; a lookup
of a key that was never set returns absent and changes nothing. -/
theorem getFromCache_spec {α : Type} (now tset : Int) (c : Cache α)
    (k : String) (v : α) (ttl : Int) :
    ((getFromCache now (setCache tset c k v ttl) k).1 = some v ↔
        now - tset < ttl) ∧
    (now - tset < ttl →
        (getFromCache now (setCache tset c k v ttl) k).2 =
          setCache tset c k v ttl) ∧
    (¬now - tset < ttl →
        (getFromCache now (setCache tset c k v ttl) k).1 = none ∧
        (∀ k', mapGet (getFromCache now (setCache tset c k v ttl) k).2 k' =
            if k' = k then none
            else mapGet (setCache tset c k v ttl) k') ∧
        getFromCache now (getFromCache now (setCache tset c k v ttl) k).2 k =
          (none, (getFromCache now (setCache tset c k v ttl) k).2)) ∧
    (mapGet c k = none → getFromCache now c k = (none, c)) := by
  have hset : mapGet (setCache tset c k v ttl) k =
      some { data := v, timestamp := tset, ttl := ttl } := by
    rw [setCache, mapGet_mapSet]
    simp
  by_cases hval : now - tset < ttl
  · have hv : isValidCache now
        ({ data := v, timestamp := tset, ttl := ttl } : CacheEntry α) = true := by
      simp [isValidCache, hval]
    refine ⟨?_, ?_, ?_, getFromCache_of_not_mem now c k⟩
    · simp [getFromCache, hset, hv, hval]
    · intro _
      simp [getFromCache, hset, hv]
    · intro h
      exact absurd hval h
  · have hv : isValidCache now
        ({ data := v, timestamp := tset, ttl := ttl } : CacheEntry α) = false := by
      simp [isValidCache, hval]
    have h1 : (getFromCache now (setCache tset c k v ttl) k).1 = none := by
      simp [getFromCache, hset, hv]
    have h2 : ∀ k', mapGet (getFromCache now (setCache tset c k v ttl) k).2 k' =
        if k' = k then none else mapGet (setCache tset c k v ttl) k' := by
      intro k'
      simp [getFromCache, hset, hv, mapGet_mapDelete]
    refine ⟨?_, ?_, ?_, getFromCache_of_not_mem now c k⟩
    · simp [h1, hval]
    · intro h
      exact absurd h hval
    · intro _
      refine ⟨h1, h2, ?_⟩
      have hdel : mapGet (getFromCache now (setCache tset c k v ttl) k).2 k =
          none := by
        rw [h2 k]
        simp
      exact getFromCache_of_not_mem now _ k hdel

/-- Witness for C1 at a concrete input: a value set at time 0 with a 1000 ms
ttl is returned at time 5. -/
theorem getFromCache_spec_witness :
    (getFromCache 5 (setCache 0 ([] : Cache Nat) "a" 1 1000) "a").1 = some 1 :=
  (getFromCache_spec 5 0 [] "a" 1 1000).1.mpr (by decide)

/-- C2: invalidateCache(pattern) deletes exactly the entries whose key
contains the pattern as a substring and leaves every other entry, with its
value, timestamp and ttl, unchanged: for every key k the lookup after
invalidation is absent when the pattern occurs in k and is the original
entry otherwise. -/
theorem invalidateCache_removes_exactly_matching {α : Type} (c : Cache α)
    (pattern k : String) :
    mapGet (invalidateCache c pattern) k =
      if strIncludes k pattern = true then none else mapGet c k := by
  simp only [invalidateCache]
  rw [mapGet_filterKey c (fun s => !(strIncludes s pattern)) k]
  by_cases h : strIncludes k pattern = true <;> simp [h]

/-- C10: cache key construction is not injective: joining the method and the
arguments with ":" and no escaping makes the distinct argument lists
["a:b"] and ["a", "b"] produce the same key, and the aliasing is observable
through isCached: an entry stored under the key of ("m", ["a:b"]) answers the
membership test for ("m", ["a", "b"]). -/
theorem getCacheKey_not_injective :
    getCacheKey "m" ["a:b"] = getCacheKey "m" ["a", "b"] ∧
    (["a:b"] : List String) ≠ ["a", "b"] ∧
    (isCached 0 (setCache 0 ([] : Cache Nat) (getCacheKey "m" ["a:b"]) 7 1000)
        "m" ["a", "b"]).1 = true := by
  refine ⟨by decide, by decide, by decide⟩

/-- C4: every successful mutating call carrying a project id (uploadDataset,
startTraining, deleteProject) removes exactly the cache entries whose key
contains that project id and leaves every other entry unchanged, so the
cache is never cleared wholesale; in particular, after a successful
uploadDataset("p1", ...) the entry under the getProjectStatus("p1") key is
absent even when it was set moments before with a 30 second ttl still
remaining. -/
theorem mutation_invalidates_project_scoped {α : Type} (now tset : Int)
    (c : Cache α) (pid k : String) (req : TrainingRequest) (v : α) :
    (mapGet (uploadDataset c pid true) k =
      if strIncludes k pid = true then none else mapGet c k) ∧
    (mapGet (startTraining c req true) k =
      if strIncludes k req.project_id = true then none else mapGet c k) ∧
    (mapGet (deleteProject c pid true) k =
      if strIncludes k pid = true then none else mapGet c k) ∧
    (getFromCache now
        (uploadDataset
          (setCache tset c (getCacheKey "getProjectStatus" ["p1"]) v 30000)
          "p1" true)
        (getCacheKey "getProjectStatus" ["p1"])).1 = none := by
  have base : ∀ (c' : Cache α) (pid' k' : String),
      mapGet (invalidateProjectCache c' (some pid')) k' =
        if strIncludes k' pid' = true then none else mapGet c' k' := by
    intro c' pid' k'
    simp only [invalidateProjectCache, invalidateCache]
    rw [mapGet_filterKey c' (fun s => !(strIncludes s pid')) k']
    by_cases h : strIncludes k' pid' = true <;> simp [h]
  refine ⟨?_, ?_, ?_, ?_⟩
  · simpa [uploadDataset] using base c pid k
  · simpa [startTraining] using base c req.project_id k
  · simpa [deleteProject] using base c pid k
  · have hkey : strIncludes (getCacheKey "getProjectStatus" ["p1"]) "p1"
        = true := by decide
    have h1 : mapGet
        (uploadDataset
          (setCache tset c (getCacheKey "getProjectStatus" ["p1"]) v 30000)
          "p1" true)
        (getCacheKey "getProjectStatus" ["p1"]) = none := by
      have := base (setCache tset c (getCacheKey "getProjectStatus" ["p1"]) v 30000)
        "p1" (getCacheKey "getProjectStatus" ["p1"])
      rw [hkey] at this
      simpa [uploadDataset] using this
    rw [getFromCache_of_not_mem now _ _ h1]

theorem getTrainingSummary_hit (now : Int) (c : Cache TrainingSummary)
    (pid tid : String) (result cached : TrainingSummary)
    (hhit : (getFromCache now c
        (getCacheKey "getTrainingSummary" [pid, tid])).1 = some cached) :
    getTrainingSummary now c pid tid result = (cached, c) := by
  simp only [getTrainingSummary]
  rw [getFromCache_hit_state hhit]

/-- C3: a successful getTrainingSummary call that misses the cache returns
the server result and caches it under the getTrainingSummary key with a 30
minute ttl when ai_summary_status is "completed" (so any repeated call
within 30 minutes of insertion returns the identical cached result without
touching the network), caches it for 10 seconds when the status is
"generating" (so a lookup 10 seconds or more later is absent), and caches
nothing for any other status. -/
theorem getTrainingSummary_caching_policy (now : Int)
    (c : Cache TrainingSummary) (pid tid : String) (result : TrainingSummary)
    (hmiss : (getFromCache now c
        (getCacheKey "getTrainingSummary" [pid, tid])).1 = none) :
    (getTrainingSummary now c pid tid result).1 = result ∧
    (result.ai_summary_status = "completed" →
      mapGet (getTrainingSummary now c pid tid result).2
          (getCacheKey "getTrainingSummary" [pid, tid]) =
        some { data := result, timestamp := now,
               ttl := TRAINING_SUMMARY_TTL } ∧
      ∀ now' res', now' - now < TRAINING_SUMMARY_TTL →
        (getTrainingSummary now' (getTrainingSummary now c pid tid result).2
            pid tid res').1 = result) ∧
    (result.ai_summary_status = "generating" →
      mapGet (getTrainingSummary now c pid tid result).2
          (getCacheKey "getTrainingSummary" [pid, tid]) =
        some { data := result, timestamp := now, ttl := 10 * 1000 } ∧
      ∀ now', 10 * 1000 ≤ now' - now →
        (getFromCache now' (getTrainingSummary now c pid tid result).2
            (getCacheKey "getTrainingSummary" [pid, tid])).1 = none) ∧
    (result.ai_summary_status ≠ "completed" →
      result.ai_summary_status ≠ "generating" →
      mapGet (getTrainingSummary now c pid tid result).2
          (getCacheKey "getTrainingSummary" [pid, tid]) = none) := by
  have hg : getFromCache now c (getCacheKey "getTrainingSummary" [pid, tid]) =
      (none, (getFromCache now c (getCacheKey "getTrainingSummary" [pid, tid])).2) := by
    rw [← hmiss]
  have hunfold : getTrainingSummary now c pid tid result =
      if result.ai_summary_status = "completed" then
        (result, setCache now
          (getFromCache now c (getCacheKey "getTrainingSummary" [pid, tid])).2
          (getCacheKey "getTrainingSummary" [pid, tid]) result
          TRAINING_SUMMARY_TTL)
      else if result.ai_summary_status = "generating" then
        (result, setCache now
          (getFromCache now c (getCacheKey "getTrainingSummary" [pid, tid])).2
          (getCacheKey "getTrainingSummary" [pid, tid]) result (10 * 1000))
      else (result,
        (getFromCache now c (getCacheKey "getTrainingSummary" [pid, tid])).2) := by
    simp only [getTrainingSummary]
    rw [hg]
  have hres : (getTrainingSummary now c pid tid result).1 = result := by
    rw [hunfold]
    by_cases h1 : result.ai_summary_status = "completed" <;>
      by_cases h2 : result.ai_summary_status = "generating" <;> simp [h1, h2]
  refine ⟨hres, ?_, ?_, ?_⟩
  · intro hcomp
    have h2 : (getTrainingSummary now c pid tid result).2 = setCache now
        (getFromCache now c (getCacheKey "getTrainingSummary" [pid, tid])).2
        (getCacheKey "getTrainingSummary" [pid, tid]) result
        TRAINING_SUMMARY_TTL := by
      rw [hunfold]
      simp [hcomp]
    have hentry : mapGet (getTrainingSummary now c pid tid result).2
        (getCacheKey "getTrainingSummary" [pid, tid]) =
        some { data := result, timestamp := now, ttl := TRAINING_SUMMARY_TTL } := by
      rw [h2, setCache, mapGet_mapSet]
      simp
    refine ⟨hentry, ?_⟩
    intro now' res' hlt
    have hvalid : isValidCache now'
        ({ data := result, timestamp := now, ttl := TRAINING_SUMMARY_TTL } :
          CacheEntry TrainingSummary) = true := by
      simp only [isValidCache, decide_eq_true_eq]
      simpa using hlt
    have hhit : (getFromCache now' (getTrainingSummary now c pid tid result).2
        (getCacheKey "getTrainingSummary" [pid, tid])).1 = some result := by
      simp [getFromCache, hentry, hvalid]
    rw [getTrainingSummary_hit now' (getTrainingSummary now c pid tid result).2
      pid tid res' result hhit]
  · intro hgen
    have hnotcomp : ¬result.ai_summary_status = "completed" := by
      rw [hgen]
      decide
    have h2 : (getTrainingSummary now c pid tid result).2 = setCache now
        (getFromCache now c (getCacheKey "getTrainingSummary" [pid, tid])).2
        (getCacheKey "getTrainingSummary" [pid, tid]) result (10 * 1000) := by
      rw [hunfold]
      simp [hgen, hnotcomp]
    have hentry : mapGet (getTrainingSummary now c pid tid result).2
        (getCacheKey "getTrainingSummary" [pid, tid]) =
        some { data := result, timestamp := now, ttl := 10 * 1000 } := by
      rw [h2, setCache, mapGet_mapSet]
      simp
    refine ⟨hentry, ?_⟩
    intro now' hge
    have hvalid : isValidCache now'
        ({ data := result, timestamp := now, ttl := 10000 } :
          CacheEntry TrainingSummary) = false := by
      simp only [isValidCache, decide_eq_false_iff_not, not_lt]
      omega
    simp [getFromCache, hentry, hvalid]
  · intro hnc hng
    have h2 : (getTrainingSummary now c pid tid result).2 =
        (getFromCache now c (getCacheKey "getTrainingSummary" [pid, tid])).2 := by
      rw [hunfold]
      simp [hnc, hng]
    rw [h2]
    exact mapGet_after_miss now c _ hmiss

/-- Witness for C3 at a concrete input: on an empty cache at time 0, a
completed summary is returned and a repeated call one second later still
returns it from the cache. -/
theorem getTrainingSummary_caching_policy_witness :
    (getTrainingSummary 0 [] "p" "t" sampleSummaryCompleted).1 =
      sampleSummaryCompleted ∧
    (getTrainingSummary 1000
        (getTrainingSummary 0 [] "p" "t" sampleSummaryCompleted).2
        "p" "t" sampleSummaryCompleted).1 = sampleSummaryCompleted := by
  have h := getTrainingSummary_caching_policy 0 [] "p" "t"
    sampleSummaryCompleted (by rfl)
  exact ⟨h.1, (h.2.1 (by rfl)).2 1000 sampleSummaryCompleted (by decide)⟩

/-- C9: the read-only inspection operations never mutate the cache: isCached
and getCacheStats leave the store unchanged, an expired entry is still
counted by the statistics (the total counts every stored entry and the
expired counter sees it) while isCached answers false for its key, and the
entry is only removed later, for instance by a lookup on its key. -/
theorem inspection_ops_preserve_cache {α : Type} (now : Int) (c : Cache α)
    (method : String) (params : List String) (k : String) (e : CacheEntry α)
    (hk : mapGet c k = some e) (hexp : isValidCache now e = false) :
    (isCached now c method params).2 = c ∧
    (getCacheStats now c).2 = c ∧
    (getCacheStats now c).1.total = c.length ∧
    1 ≤ (getCacheStats now c).1.expired ∧
    (getCacheKey method params = k → (isCached now c method params).1 = false) ∧
    getFromCache now c k = (none, mapDelete c k) := by
  refine ⟨?_, rfl, ?_, ?_, ?_, ?_⟩
  · rcases h : mapGet c (getCacheKey method params) with _ | e' <;>
      simp [isCached, h]
  · simp only [getCacheStats]
    exact countP_add_countP_not _ c
  · have hmem := mapGet_mem hk
    have h1 : 1 ≤ c.countP fun p => !(isValidCache now p.2) :=
      one_le_countP_of_mem hmem (by simp [hexp])
    simpa [getCacheStats] using h1
  · intro hkey
    simp [isCached, hkey, hk, hexp]
  · simp [getFromCache, hk, hexp]

/-- Witness for C9 at a concrete input: a store holding one expired entry is
untouched by getCacheStats, which still counts it. -/
theorem inspection_ops_preserve_cache_witness :
    (getCacheStats 100 [("k", (⟨0, 0, 10⟩ : CacheEntry Nat))]).1.total = 1 :=
  (inspection_ops_preserve_cache 100 [("k", (⟨0, 0, 10⟩ : CacheEntry Nat))]
    "m" [] "k" ⟨0, 0, 10⟩ rfl (by decide)).2.2.1.trans rfl

/-- Counterexample to C8 as stated: for the non-download operations an
unparsable error body does not produce a transport-status-derived fallback
message; the JSON parse failure itself propagates, so the message is the
parse error text, which differs from the status fallback and varies with the
parse error while the transport status stays fixed. -/
theorem apiError_unparsable_not_status_derived :
    apiErrorMessage 500 (ErrorBody.unparsable "x") = "x" ∧
    "x" ≠ httpErrorFallback 500 ∧
    apiErrorMessage 500 (ErrorBody.unparsable "x") ≠
      apiErrorMessage 500 (ErrorBody.unparsable "y") := by
  refine ⟨rfl, by decide, by decide⟩

/-- C8 amended: on a non-2xx response the operations throw an error whose
message is the detail field of the parsed body when it is present and
nonempty and a status-code fallback when it is missing or empty; for the two
download operations an unparsable body falls back to the transport status
text (or to the status-code fallback when the status text is empty); for
every other operation an unparsable body makes the JSON parse failure itself
propagate as the thrown error. -/
theorem errorMessage_spec_amended :
    (∀ (status : Nat) (d : String), d ≠ "" →
        apiErrorMessage status (ErrorBody.parsed (some d)) = d) ∧
    (∀ status : Nat,
        apiErrorMessage status (ErrorBody.parsed none) =
          httpErrorFallback status ∧
        apiErrorMessage status (ErrorBody.parsed (some "")) =
          httpErrorFallback status) ∧
    (∀ (status : Nat) (m : String),
        apiErrorMessage status (ErrorBody.unparsable m) = m) ∧
    (∀ (status : Nat) (st d : String), d ≠ "" →
        downloadErrorMessage status st (ErrorBody.parsed (some d)) = d) ∧
    (∀ (status : Nat) (st : String),
        downloadErrorMessage status st (ErrorBody.parsed none) =
          httpErrorFallback status) ∧
    (∀ (status : Nat) (st m : String), st ≠ "" →
        downloadErrorMessage status st (ErrorBody.unparsable m) = st) ∧
    (∀ (status : Nat) (m : String),
        downloadErrorMessage status "" (ErrorBody.unparsable m) =
          httpErrorFallback status) := by
  refine ⟨?_, ?_, ?_, ?_, ?_, ?_, ?_⟩
  · intro status d hd
    simp [apiErrorMessage, detailOr, hd]
  · intro status
    exact ⟨rfl, by simp [apiErrorMessage, detailOr]⟩
  · intro status m
    rfl
  · intro status st d hd
    simp [downloadErrorMessage, detailOr, hd]
  · intro status st
    rfl
  · intro status st m hst
    simp [downloadErrorMessage, hst]
  · intro status m
    rfl

/-- Witness for the amended C8 at concrete inputs: a parsed detail is the
thrown message, and a download with an unparsable body falls back to the
transport status text. -/
theorem errorMessage_spec_amended_witness :
    apiErrorMessage 404 (ErrorBody.parsed (some "Project not found")) =
      "Project not found" ∧
    downloadErrorMessage 404 "Not Found" (ErrorBody.unparsable "x") =
      "Not Found" :=
  ⟨errorMessage_spec_amended.1 404 "Project not found" (by decide),
    errorMessage_spec_amended.2.2.2.2.2.1 404 "Not Found" "x" (by decide)⟩

/-- C5 fails on the code: a status-poll timer chain created by an effect run
that captured status "running" keeps fetching and rescheduling after a fetch
observes "completed", because the scheduling guard reads the closure-captured
status and never the fetched response; over the response stream running,
running, completed, running, running the chain performs five fetches, two of
them after the terminal status was observed, where the claim demands exactly
three fetches and then silence. -/
theorem statusChain_continues_after_terminal :
    statusChainTrace (some "running") true
        ["running", "running", "completed", "running", "running"] =
      ["running", "running", "completed", "running", "running"] ∧
    (statusChainTrace (some "running") true
        ["running", "running", "completed", "running", "running"]).length =
      5 := by
  refine ⟨rfl, rfl⟩

/-- C6 fails on the code: the fetch helpers swallow their own rejections, so
the catch branches that multiply the poll delay are unreachable; after three
consecutive transport failures (and after any number of them) the scheduled
log delay is still the initial 3000 ms and the status delay still 8000 ms,
although the backoff expression of the source would have produced 4500 ms
after one log failure. -/
theorem pollBackoff_never_applied :
    logIntervalAfter [FetchOutcome.transportFailure,
        FetchOutcome.transportFailure, FetchOutcome.transportFailure] =
      3000 ∧
    logIntervalAfter (List.replicate 10 FetchOutcome.transportFailure) =
      3000 ∧
    statusIntervalAfter [FetchOutcome.transportFailure,
        FetchOutcome.transportFailure, FetchOutcome.transportFailure] =
      8000 ∧
    min ((3000 : ℚ) * (3 / 2)) 30000 = 4500 := by
  refine ⟨rfl, rfl, rfl, by norm_num⟩

/-- C7 fails on the code: a pending status tick of a chain created while the
view was mounted still fetches and still reschedules after the view has
unmounted, because both mounted guards read the closure-captured flag, which
stays true; the current component state, here unmounted with a terminal
status, cannot enter either decision. -/
theorem statusTick_ignores_unmount :
    statusTickFetches { mounted := true, status := some "running" }
        { mounted := false, status := some "completed" } = true ∧
    statusTickReschedules { mounted := true, status := some "running" }
        { mounted := false, status := some "completed" } = true :=
  ⟨rfl, rfl⟩
